import Mathlib

/-!
# Verification of the h2gb/libh2gb core against its specification

Shallow embedding of the in-scope Rust sources:

* `src/src/action/project_rename.rs` — the `ProjectRename` action.
* `src/src/h2project/h2buffer.rs` — `H2Buffer` and its operations.
* `src/src/datatype/mod.rs` and `src/src/datatype/complex_type/h2array.rs` —
  the typed-interpretation engine fragment needed for arrays.
* `src/src/transformation/transform_aes.rs` — `AESSettings::new`.

Rust conventions used throughout the embedding:

* `Vec<u8>` becomes `List Nat` (byte values; arithmetic on them never matters
  for the embedded fragment, so no mod-256 reduction is needed).
* `SimpleResult<T>` becomes `Except String T`, carrying the `bail!` message.
* A method taking `&mut self` (and possibly `&mut project`) becomes a pure
  function returning its result *and* the post-call state; Rust's early
  `bail!` returns leave the state untouched, so the failing branches return
  the input state unchanged.
* `u64` / `usize` become `Nat` (all the embedded arithmetic is addition and
  multiplication on sizes, where Rust overflow is out of scope).
-/

set_option autoImplicit false

namespace H2GB

/-- Modelled from the spec: `H2Project` — the `h2project` module root is not in
the source tree (only `h2project/h2buffer.rs` is). Per §3 and §4.1 of the spec
a project carries a display `name` and a `version` (plus buffers, which
`ProjectRename` never touches and which are omitted from the carrier). -/
structure H2Project where
  name : String
  version : String
  deriving DecidableEq

/-- `ActionProjectRenameForward` — src/src/action/project_rename.rs lines 8-11. -/
structure ActionProjectRenameForward where
  new_name : String
  deriving DecidableEq

/-- `ActionProjectRenameBackward` — src/src/action/project_rename.rs lines 13-16. -/
structure ActionProjectRenameBackward where
  old_name : String
  deriving DecidableEq

/-- `ActionProjectRename` — src/src/action/project_rename.rs lines 18-22. -/
structure ActionProjectRename where
  forward : Option ActionProjectRenameForward
  backward : Option ActionProjectRenameBackward
  deriving DecidableEq

/-- `ActionProjectRename::new` — src/src/action/project_rename.rs lines 24-31. -/
def ActionProjectRename.new (forward : ActionProjectRenameForward) : ActionProjectRename :=
  { forward := some forward, backward := none }

/-- `ActionProjectRename::apply` — src/src/action/project_rename.rs lines 37-53.
`self.forward.take()` empties the `forward` slot and fails with the
missing-context message when it was already empty; on success the project name
is replaced (`mem::replace`) and the old name is stored in `backward`.
The returned triple is (outcome, post-call action, post-call project). -/
def ActionProjectRename.apply (a : ActionProjectRename) (project : H2Project) :
    Except String Unit × ActionProjectRename × H2Project :=
  match a.forward with
  | none => (.error "Failed to apply: missing context", a, project)
  | some f =>
      (.ok (),
       { forward := none, backward := some { old_name := project.name } },
       { project with name := f.new_name })

/-- `ActionProjectRename::undo` — src/src/action/project_rename.rs lines 55-68.
Mirror image of `apply`: takes the `backward` slot, restores the old name, and
stores the name current at undo time back into `forward`. -/
def ActionProjectRename.undo (a : ActionProjectRename) (project : H2Project) :
    Except String Unit × ActionProjectRename × H2Project :=
  match a.backward with
  | none => (.error "Failed to undo: missing context", a, project)
  | some b =>
      (.ok (),
       { forward := some { new_name := project.name }, backward := none },
       { project with name := b.old_name })

/-- `H2Transformation` is provided by the external `h2transformer` crate
(`use h2transformer::H2Transformation` in h2buffer.rs); the buffer code only
invokes its two fallible `bytes → bytes` methods, so the type is embedded as
exactly that interface. -/
structure H2Transformation where
  transform : List Nat → Except String (List Nat)
  untransform : List Nat → Except String (List Nat)

/-- `H2Layer` — src/src/h2project/h2buffer.rs lines 27-31. -/
structure H2Layer where
  name : String
  buffer : String
  deriving DecidableEq

/-- `H2Buffer` — src/src/h2project/h2buffer.rs lines 34-41. The
`HashMap<H2LayerName, H2Layer>` of layers is embedded as an association list
(the buffer code only ever asks for its size). -/
structure H2Buffer where
  data : List Nat
  base_address : Nat
  layers : List (String × H2Layer)
  transformations : List H2Transformation

/-- `H2Buffer::new` — src/src/h2project/h2buffer.rs lines 44-55. -/
def H2Buffer.new (data : List Nat) (base_address : Nat) : Except String H2Buffer :=
  if data.length = 0 then
    .error "Can't create a buffer of zero length"
  else
    .ok { data := data, base_address := base_address, layers := [], transformations := [] }

/-- `H2Buffer::len` — src/src/h2project/h2buffer.rs lines 57-59. -/
def H2Buffer.len (b : H2Buffer) : Nat :=
  b.data.length

/-- `H2Buffer::clone_shallow` — src/src/h2project/h2buffer.rs lines 61-69. -/
def H2Buffer.clone_shallow (b : H2Buffer) (new_base_address : Option Nat) :
    Except String H2Buffer :=
  match H2Buffer.new b.data (new_base_address.getD b.base_address) with
  | .error e => .error e
  | .ok cloned => .ok { cloned with transformations := b.transformations }

/-- `H2Buffer::clone_partial` — src/src/h2project/h2buffer.rs lines 76-88.
The Rust `Range<usize>` argument is embedded as its two endpoints `start` and
`stop` (for `range.start` / `range.end`; `end` is a Lean keyword). The slice
`self.data[range]` is embedded as drop-then-take, which agrees with Rust for
every well-formed range `start ≤ stop` (an inverted range panics in Rust and
yields the empty slice here; no theorem below relies on that case). -/
def H2Buffer.clone_partial (b : H2Buffer) (start stop : Nat) (new_base_address : Option Nat) :
    Except String H2Buffer :=
  if stop > b.data.length then
    .error "Editing data into buffer is too long"
  else
    let base_address := match new_base_address with
      | some v => v
      | none => b.base_address + start
    H2Buffer.new ((b.data.drop start).take (stop - start)) base_address

/-- `H2Buffer::is_populated` — src/src/h2project/h2buffer.rs lines 90-96. -/
def H2Buffer.is_populated (b : H2Buffer) : Bool :=
  decide (b.layers.length > 0)

/-- `H2Buffer::transform` — src/src/h2project/h2buffer.rs lines 98-112.
On success the new transformation is pushed and `mem::replace` installs the
transformed bytes, returning the previous ones. -/
def H2Buffer.transform (b : H2Buffer) (transformation : H2Transformation) :
    Except String (List Nat) × H2Buffer :=
  if b.is_populated then
    (.error "Buffer contains data", b)
  else
    match transformation.transform b.data with
    | .error e => (.error e, b)
    | .ok new_data =>
        (.ok b.data,
         { b with data := new_data,
                  transformations := b.transformations ++ [transformation] })

/-- `H2Buffer::transform_undo` — src/src/h2project/h2buffer.rs lines 114-129.
`Vec::pop` is embedded as `getLast?` plus `dropLast`. The caller-supplied
`original_data` is installed unconditionally once the pop succeeds. -/
def H2Buffer.transform_undo (b : H2Buffer) (original_data : List Nat) :
    Except String H2Transformation × H2Buffer :=
  if b.is_populated then
    (.error "Buffer contains data", b)
  else
    match b.transformations.getLast? with
    | none => (.error "No transformations in the stack", b)
    | some t =>
        (.ok t, { b with data := original_data, transformations := b.transformations.dropLast })

/-- `H2Buffer::untransform` — src/src/h2project/h2buffer.rs lines 131-154.
The source peeks at `transformations.last()`, attempts the inversion, and only
pops after the inversion succeeded (the "disappeared" re-check at lines 147-150
is unreachable once `last()` returned `Some` and is folded into the pop here). -/
def H2Buffer.untransform (b : H2Buffer) :
    Except String (List Nat × H2Transformation) × H2Buffer :=
  if b.is_populated then
    (.error "Buffer contains data", b)
  else
    match b.transformations.getLast? with
    | none => (.error "Buffer has no transformations", b)
    | some t =>
        match t.untransform b.data with
        | .error e => (.error e, b)
        | .ok new_data =>
            (.ok (b.data, t),
             { b with data := new_data, transformations := b.transformations.dropLast })

/-- `H2Buffer::untransform_undo` — src/src/h2project/h2buffer.rs lines 156-170. -/
def H2Buffer.untransform_undo (b : H2Buffer) (original_data : List Nat)
    (transformation : H2Transformation) : Except String Unit × H2Buffer :=
  if b.is_populated then
    (.error "Buffer contains data", b)
  else
    (.ok (),
     { b with data := original_data,
              transformations := b.transformations ++ [transformation] })

/-- `H2Buffer::edit` — src/src/h2project/h2buffer.rs lines 172-187.
`Vec::splice(offset..offset+len, data)` replaces that range with `data` and
returns the removed elements; note the source checks only the bounds and the
zero-length edit — there is no `is_populated` check in `edit`. -/
def H2Buffer.edit (b : H2Buffer) (data : List Nat) (offset : Nat) :
    Except String (List Nat) × H2Buffer :=
  if offset + data.length > b.data.length then
    (.error "Editing data into buffer is too long", b)
  else if data.length = 0 then
    (.error "Can't edit zero bytes", b)
  else
    (.ok ((b.data.drop offset).take data.length),
     { b with data := b.data.take offset ++ data ++ b.data.drop (offset + data.length) })

/-- Modelled from the spec: the element sizes of the external `sized_number`
crate's `SizedDefinition` (only its `size()` is consumed by the embedded
datatype fragment). §4.3 enumerates the reader kinds `U{8,16,32,64}` (among
others); the byte size is the bit-width divided by 8, the value used by
`H2Number::size`. -/
inductive SizedDefinition where
  | U8 | U16 | U32 | U64
  deriving DecidableEq

def SizedDefinition.size : SizedDefinition → Nat
  | .U8 => 1
  | .U16 => 2
  | .U32 => 4
  | .U64 => 8

/-- `H2Type` — src/src/datatype/mod.rs lines 108-112 (`field : H2Types` plus
`byte_alignment : Option<u64>`), with the `H2Types` tag enum (lines 54-69) and
the `H2Array` payload (src/src/datatype/complex_type/h2array.rs lines 6-10,
`field_type : Box<H2Type>`, `length : u64`) collapsed into one inductive.
Of the basic kinds only `H2Number` is embedded — the claims under proof
involve numbers and arrays only; the number's display is irrelevant to its
size and is omitted. -/
inductive H2Type where
  | number (definition : SizedDefinition) (byte_alignment : Option Nat)
  | array (length : Nat) (field_type : H2Type) (byte_alignment : Option Nat)
  deriving DecidableEq

/-- `Align` — src/src/datatype/mod.rs lines 48-52. -/
inductive Align where
  | Yes
  | No
  deriving DecidableEq

/-- Modelled from the spec: `helpers::maybe_round_up` — the
`src/src/datatype/helpers` module is not in the source tree. Per §4.4,
aligned size is `round_up_to_multiple(size, byte_alignment)` when an alignment
is set, else the size itself; §3 states the alignment is a positive integer
(the `m = 0` guard below only keeps the model total). -/
def maybe_round_up (n : Nat) (m : Option Nat) : Nat :=
  match m with
  | none => n
  | some m => if m = 0 then n else ((n + m - 1) / m) * m

def H2Type.byte_alignment : H2Type → Option Nat
  | .number _ a => a
  | .array _ _ a => a

/-- `H2TypeTrait::is_static` — `true` for `H2Number`
(a number's size never depends on the data); for `H2Array` it is
`field_type.is_static` (src/src/datatype/complex_type/h2array.rs lines 35-37). -/
def H2Type.is_static : H2Type → Bool
  | .number _ _ => true
  | .array _ ft _ => ft.is_static

/-- The `H2TypeTrait::size` of the wrapped field: `H2Number::size` returns the
definition's size; `H2Array::size` (h2array.rs lines 39-44) returns
`length * field_type.size(offset, Align::Yes)` for a static element and fails
for dynamic arrays. In the embedded fragment (numbers, arrays) the size never
reads the `ResolveOffset`, which both implementations only thread through, so
the context argument is dropped. -/
def H2Type.field_size : H2Type → Except String Nat
  | .number d _ => .ok d.size
  | .array length ft _ =>
      if ft.is_static then
        match ft.field_size with
        | .error e => .error e
        | .ok s => .ok (length * maybe_round_up s ft.byte_alignment)
      else
        .error "We can't calculate size of Dynamic arrays yet"

/-- `H2Type::size` — src/src/datatype/mod.rs lines 152-161: with `Align::Yes`
the field's size is rounded up to the node's `byte_alignment`, with
`Align::No` it is returned as-is. -/
def H2Type.size (t : H2Type) (align : Align) : Except String Nat :=
  match align with
  | .Yes =>
      match t.field_size with
      | .error e => .error e
      | .ok s => .ok (maybe_round_up s t.byte_alignment)
  | .No => t.field_size

/-- `ResolvedType` — the record pushed by `H2Array::resolve_partial`
(src/src/datatype/complex_type/h2array.rs lines 53-58): a half-open byte
range, an optional field name (the array index, rendered in decimal), and the
element type. The Rust `Range<u64>` is embedded as its two endpoints. -/
structure ResolvedType where
  offset_start : Nat
  offset_stop : Nat
  field_name : Option String
  field_type : H2Type
  deriving DecidableEq

/-- The loop body of `H2Array::resolve_partial` (h2array.rs lines 46-64),
unrolled into structural recursion on the remaining length: `n` elements are
still to be produced, `i` is the index of the next one and `start` its
starting offset. Each iteration pushes the range
`start..(start + field_type.size(Align::No))` and advances `start` by
`field_type.size(Align::Yes)` — the aligned size is the stride, the
unaligned size the exposed width. -/
def resolveElements (ft : H2Type) : Nat → Nat → Nat → Except String (List ResolvedType)
  | 0, _, _ => .ok []
  | n + 1, i, start =>
      match ft.size Align.No with
      | .error e => .error e
      | .ok s =>
          match ft.size Align.Yes with
          | .error e => .error e
          | .ok a =>
              match resolveElements ft n (i + 1) (start + a) with
              | .error e => .error e
              | .ok rest =>
                  .ok ({ offset_start := start, offset_stop := start + s,
                         field_name := some (toString i), field_type := ft } :: rest)

/-- `H2Array::resolve_partial` — src/src/datatype/complex_type/h2array.rs
lines 46-64, for an array node resolved at position `pos`
(`offset.position()` in the source); leaf nodes have no children, so the
number case resolves to no partial children here. -/
def H2Type.resolve_partial (t : H2Type) (pos : Nat) : Except String (List ResolvedType) :=
  match t with
  | .number _ _ => .ok []
  | .array length ft _ => resolveElements ft length 0 pos

/-- `H2Array::new` — src/src/datatype/complex_type/h2array.rs lines 24-32.
The constructor is total: it returns `Self` (not a `Result`) for every length,
including zero length — the `TODO` at line 25 records that zero-length arrays
are meant to be prevented but are not. The result is embedded as the
corresponding unaligned `H2Type` node (the `From<H2Array>` impl at
lines 12-16). -/
def H2Array.new (length : Nat) (field_type : H2Type) : H2Type :=
  H2Type.array length field_type none

/-- `AESKey` — src/src/transformation/transform_aes.rs lines 10-15. The Rust
fixed arrays `[u8; 16/24/32]` are embedded as byte lists. -/
inductive AESKey where
  | Bits128 (k : List Nat)
  | Bits192 (k : List Nat)
  | Bits256 (k : List Nat)
  deriving DecidableEq

/-- The hardcoded 16-byte key `b"AAAAAABAAAAAAAAA"` at transform_aes.rs
line 26 (`A` = 65, `B` = 66). -/
def aesHardcodedKey128 : List Nat :=
  List.replicate 6 65 ++ [66] ++ List.replicate 9 65

/-- The hardcoded 24-byte key `b"AAAAAABAAAAAAAAAAAAAAAAA"` at line 27. -/
def aesHardcodedKey192 : List Nat :=
  List.replicate 6 65 ++ [66] ++ List.replicate 17 65

/-- The hardcoded 32-byte key `b"AAAAAAABAAAAAAAAAAAAAAAAAAAAAAAA"` at
line 28. -/
def aesHardcodedKey256 : List Nat :=
  List.replicate 7 65 ++ [66] ++ List.replicate 24 65

/-- `AESSettings` — src/src/transformation/transform_aes.rs lines 17-21. -/
structure AESSettings where
  key : AESKey
  iv : Option (List Nat)
  deriving DecidableEq

/-- `AESSettings::new` — src/src/transformation/transform_aes.rs lines 24-36:
the key length selects the variant, and the *stored* key bytes are the
hardcoded constants above, not the caller's bytes; any other length fails
with the invalid-key-length message. -/
def AESSettings.new (key : List Nat) (iv : Option (List Nat)) : Except String AESSettings :=
  if key.length = 16 then
    .ok { key := AESKey.Bits128 aesHardcodedKey128, iv := iv }
  else if key.length = 24 then
    .ok { key := AESKey.Bits192 aesHardcodedKey192, iv := iv }
  else if key.length = 32 then
    .ok { key := AESKey.Bits256 aesHardcodedKey256, iv := iv }
  else
    .error ("Invalid AES key length: " ++ toString key.length ++ " bytes / "
      ++ toString (key.length * 8) ++ " bits")

/-- A concrete invertible transformation used to instantiate witnesses and
counterexamples: both directions are the identity on the byte list. -/
def idTransformation : H2Transformation :=
  { transform := fun b => .ok b, untransform := fun b => .ok b }

/-! ## Theorems -/

/-- C1: the claim says `ProjectRename` with an empty `new_name` fails and the
project name is unchanged. The `apply` in src/src/action/project_rename.rs
(lines 37-53) has no empty-name check: applied to a project named `"name"`,
the rename to `""` *succeeds* and sets the name to the empty string. (The
check and a test asserting the failure exist in the older copy at
src/src/actions.bak/project_rename.rs, lines 57-60 and 119-129.) -/
theorem projectRename_empty_name_accepted :
    ActionProjectRename.apply (ActionProjectRename.new { new_name := "" })
        { name := "name", version := "1.0" } =
      (.ok (),
       { forward := none, backward := some { old_name := "name" } },
       { name := "", version := "1.0" }) := rfl

/-- C3: for every project `p` and name `n`, applying `ProjectRename(n)`
succeeds and renames the project to `n`, undoing it restores exactly the
pre-apply project `p`, and redoing (applying the action the undo left behind)
renames to `n` again. -/
theorem projectRename_roundtrip (p : H2Project) (n : String) :
    ActionProjectRename.apply (ActionProjectRename.new { new_name := n }) p =
      (.ok (),
       { forward := none, backward := some { old_name := p.name } },
       { p with name := n })
    ∧ ActionProjectRename.undo
        { forward := none, backward := some { old_name := p.name } }
        { p with name := n } =
      (.ok (), { forward := some { new_name := n }, backward := none }, p)
    ∧ ActionProjectRename.apply
        { forward := some { new_name := n }, backward := none } p =
      (.ok (),
       { forward := none, backward := some { old_name := p.name } },
       { p with name := n }) :=
  ⟨rfl, rfl, rfl⟩

/-- C4: `apply` with an absent forward payload fails with the missing-context
error and changes nothing; `undo` with an absent backward payload fails with
the missing-context error and changes nothing; every successful `apply` leaves
exactly the backward payload populated and every successful `undo` leaves
exactly the forward payload populated — so at rest exactly one of the two
slots holds a value. -/
theorem projectRename_payload_swap (f : ActionProjectRenameForward)
    (bk : ActionProjectRenameBackward)
    (fo : Option ActionProjectRenameForward)
    (bo : Option ActionProjectRenameBackward) (p : H2Project) :
    ActionProjectRename.apply { forward := none, backward := bo } p =
      (.error "Failed to apply: missing context",
       { forward := none, backward := bo }, p)
    ∧ ActionProjectRename.undo { forward := fo, backward := none } p =
      (.error "Failed to undo: missing context",
       { forward := fo, backward := none }, p)
    ∧ ActionProjectRename.apply { forward := some f, backward := bo } p =
      (.ok (),
       { forward := none, backward := some { old_name := p.name } },
       { p with name := f.new_name })
    ∧ ActionProjectRename.undo { forward := fo, backward := some bk } p =
      (.ok (),
       { forward := some { new_name := p.name }, backward := none },
       { p with name := bk.old_name }) :=
  ⟨rfl, rfl, rfl, rfl⟩

/-- C2 counterexample: the claim says `edit` fails when the buffer is
populated. On a populated buffer (one layer) holding bytes `[1, 2]`, the
source's `edit` (which checks only the bounds and the zero-length edit)
*succeeds*: it returns the replaced byte `[1]` and installs `[9, 2]`. -/
theorem edit_populated_succeeds :
    H2Buffer.is_populated
        { data := [1, 2], base_address := 0,
          layers := [("l", { name := "l", buffer := "b" })], transformations := [] } = true
    ∧ H2Buffer.edit
        { data := [1, 2], base_address := 0,
          layers := [("l", { name := "l", buffer := "b" })], transformations := [] }
        [9] 0 =
      (.ok [1],
       { data := [9, 2], base_address := 0,
         layers := [("l", { name := "l", buffer := "b" })], transformations := [] }) :=
  ⟨rfl, rfl⟩

/-- C8: the claim says a length-0 array is rejected at construction.
`H2Array::new` (src/src/datatype/complex_type/h2array.rs lines 24-32) is a
total constructor returning `Self` — it cannot fail, and with length 0 it
builds the empty array, which resolves to no elements and has size 0. (The
`TODO` at line 25 records the unimplemented rejection.) -/
theorem h2array_new_zero_length_succeeds :
    H2Array.new 0 (H2Type.number SizedDefinition.U8 none) =
      H2Type.array 0 (H2Type.number SizedDefinition.U8 none) none
    ∧ H2Type.resolve_partial (H2Array.new 0 (H2Type.number SizedDefinition.U8 none)) 0 =
      .ok []
    ∧ H2Type.size (H2Array.new 0 (H2Type.number SizedDefinition.U8 none)) Align.No =
      .ok 0 :=
  ⟨rfl, rfl, rfl⟩

/-- C5 counterexample: the claim says every successful buffer operation,
`transform_undo` among them, leaves `data` non-empty. On an unpopulated
buffer holding `[1]` with one stacked transformation, `transform_undo`
with empty `original_data` (the source installs the caller-supplied bytes
unconditionally, h2buffer.rs line 126) *succeeds* and leaves `data = []`. -/
theorem transform_undo_empties_data :
    (H2Buffer.transform_undo
        { data := [1], base_address := 0, layers := [],
          transformations := [idTransformation] } []).1.isOk = true
    ∧ (H2Buffer.transform_undo
        { data := [1], base_address := 0, layers := [],
          transformations := [idTransformation] } []).2.data = [] :=
  ⟨rfl, rfl⟩

/-- Helper: everything `H2Buffer::new` promises about a successful
construction — the input bytes are installed unchanged and were non-empty,
the base address is stored and layers and transformations start empty. -/
theorem H2Buffer.new_ok (d : List Nat) (ba : Nat) (b : H2Buffer)
    (h : H2Buffer.new d ba = .ok b) :
    b.data = d ∧ d ≠ [] ∧ b.base_address = ba ∧ b.layers = [] ∧ b.transformations = [] := by
  unfold H2Buffer.new at h
  split_ifs at h with hd
  injection h with h
  subst h
  refine ⟨rfl, ?_, rfl, rfl, rfl⟩
  intro hnil
  exact hd (by simp [hnil])

/-- C2 (amended): `edit` fails exactly when `offset + bytes.len() > len()` or
`bytes` is empty — there is no populated-buffer check — and on success it
splices `bytes` in at `offset`, leaves the length (and every other field)
unchanged, and returns the original bytes of the replaced range. -/
theorem edit_spec (b : H2Buffer) (data : List Nat) (offset : Nat) :
    ((H2Buffer.edit b data offset).1.isOk = true ↔
      offset + data.length ≤ b.data.length ∧ data.length ≠ 0)
    ∧ ∀ orig b₂, H2Buffer.edit b data offset = (.ok orig, b₂) →
        b₂.data.length = b.data.length
        ∧ orig = (b.data.drop offset).take data.length
        ∧ b₂.data = b.data.take offset ++ data ++ b.data.drop (offset + data.length)
        ∧ b₂.base_address = b.base_address
        ∧ b₂.layers = b.layers
        ∧ b₂.transformations = b.transformations := by
  unfold H2Buffer.edit
  split_ifs with h1 h2
  · refine ⟨⟨fun habs => Bool.noConfusion habs, fun ha => absurd ha.1 (by omega)⟩, ?_⟩
    intro orig b₂ h
    simp at h
  · refine ⟨⟨fun habs => Bool.noConfusion habs, fun ha => absurd h2 ha.2⟩, ?_⟩
    intro orig b₂ h
    simp at h
  · refine ⟨⟨fun _ => ⟨by omega, h2⟩, fun _ => rfl⟩, ?_⟩
    intro orig b₂ h
    simp only [Prod.mk.injEq, Except.ok.injEq] at h
    obtain ⟨horig, hb⟩ := h
    subst hb
    refine ⟨?_, horig.symm, rfl, rfl, rfl, rfl⟩
    simp only [List.length_append, List.length_take, List.length_drop]
    omega

/-- C10: a sub-range clone with an empty range (`start == end`) always fails —
the sliced bytes go through `H2Buffer::new`, which rejects zero-length data —
and for a well-formed range (`start ≤ end`) `clone_partial` succeeds exactly
when the range ends inside the buffer and is non-empty. -/
theorem clone_partial_spec (b : H2Buffer) (start stop : Nat) (nb : Option Nat) :
    (H2Buffer.clone_partial b start start nb).isOk = false
    ∧ (start ≤ stop →
        ((H2Buffer.clone_partial b start stop nb).isOk = true ↔
          stop ≤ b.data.length ∧ start < stop)) := by
  constructor
  · unfold H2Buffer.clone_partial H2Buffer.new
    split_ifs with h1 h2
    · rfl
    · rfl
    · exfalso
      simp at h2
  · intro hle
    unfold H2Buffer.clone_partial H2Buffer.new
    split_ifs with h1 h2
    · constructor
      · intro habs
        exact Bool.noConfusion habs
      · intro h
        exact absurd h.1 (by omega)
    · constructor
      · intro habs
        exact Bool.noConfusion habs
      · intro h
        simp only [List.length_take, List.length_drop] at h2
        exact absurd h2 (by omega)
    · constructor
      · intro _
        simp only [List.length_take, List.length_drop] at h2
        omega
      · intro _
        rfl

/-- C10 witness: on the three-byte buffer `[1, 2, 3]`, the empty range `1..1`
fails to clone while the claim's success condition matches `1..3`. -/
theorem clone_partial_spec_witness :
    (H2Buffer.clone_partial
        { data := [1, 2, 3], base_address := 0, layers := [], transformations := [] }
        1 1 none).isOk = false
    ∧ ((H2Buffer.clone_partial
        { data := [1, 2, 3], base_address := 0, layers := [], transformations := [] }
        1 3 none).isOk = true ↔ 3 ≤ 3 ∧ 1 < 3) := by
  have h1 := clone_partial_spec
    { data := [1, 2, 3], base_address := 0, layers := [], transformations := [] } 1 1 none
  have h2 := clone_partial_spec
    { data := [1, 2, 3], base_address := 0, layers := [], transformations := [] } 1 3 none
  exact ⟨h1.1, h2.2 (by omega)⟩

/-- C2 witness: on the unpopulated two-byte buffer `[1, 2]`, `edit([9], 0)`
succeeds and the length stays 2. -/
theorem edit_spec_witness :
    (H2Buffer.edit { data := [1, 2], base_address := 0, layers := [], transformations := [] }
        [9] 0).1.isOk = true
    ∧ (H2Buffer.edit { data := [1, 2], base_address := 0, layers := [], transformations := [] }
        [9] 0).2.data.length = 2 := by
  have h := edit_spec
    { data := [1, 2], base_address := 0, layers := [], transformations := [] } [9] 0
  refine ⟨h.1.mpr (by simp), ?_⟩
  exact (h.2 [1]
    { data := [9, 2], base_address := 0, layers := [], transformations := [] } rfl).1

/-- C5 (amended): `H2Buffer::new` rejects empty bytes and every successful
construction holds non-empty data; successful `edit`, `clone_shallow` and
`clone_partial` always leave `data` non-empty; successful `transform` and
`untransform` install exactly the (un)transformation's output bytes, and
successful `transform_undo` and `untransform_undo` install exactly the
caller-supplied original bytes — so those four leave `data` non-empty exactly
when the bytes they install are non-empty (the source never re-checks them). -/
theorem buffer_data_spec :
    (∀ ba, (H2Buffer.new [] ba).isOk = false)
    ∧ (∀ d ba b, H2Buffer.new d ba = .ok b → b.data ≠ [])
    ∧ (∀ b data offset r b₂, H2Buffer.edit b data offset = (.ok r, b₂) → b₂.data ≠ [])
    ∧ (∀ b nb b₂, H2Buffer.clone_shallow b nb = .ok b₂ → b₂.data ≠ [])
    ∧ (∀ b start stop nb b₂, H2Buffer.clone_partial b start stop nb = .ok b₂ → b₂.data ≠ [])
    ∧ (∀ b t r b₂, H2Buffer.transform b t = (.ok r, b₂) → t.transform b.data = .ok b₂.data)
    ∧ (∀ b od t b₂, H2Buffer.transform_undo b od = (.ok t, b₂) → b₂.data = od)
    ∧ (∀ b r t b₂, H2Buffer.untransform b = (.ok (r, t), b₂) →
        t.untransform b.data = .ok b₂.data)
    ∧ (∀ b od t b₂, H2Buffer.untransform_undo b od t = (.ok (), b₂) → b₂.data = od) := by
  refine ⟨?_, ?_, ?_, ?_, ?_, ?_, ?_, ?_, ?_⟩
  · intro ba
    rfl
  · intro d ba b h
    exact (H2Buffer.new_ok d ba b h).1 ▸ (H2Buffer.new_ok d ba b h).2.1
  · intro b data offset r b₂ h
    unfold H2Buffer.edit at h
    split_ifs at h with h1 h2
    · simp at h
    · simp at h
    · simp only [Prod.mk.injEq, Except.ok.injEq] at h
      obtain ⟨-, hb⟩ := h
      subst hb
      intro hnil
      have := congrArg List.length hnil
      simp only [List.length_append, List.length_take, List.length_drop,
        List.length_nil] at this
      omega
  · intro b nb b₂ h
    unfold H2Buffer.clone_shallow at h
    cases hN : H2Buffer.new b.data (nb.getD b.base_address) with
    | error e =>
        rw [hN] at h
        simp at h
    | ok cloned =>
        rw [hN] at h
        simp only [Except.ok.injEq] at h
        subst h
        have := H2Buffer.new_ok _ _ _ hN
        simpa [this.1] using this.2.1
  · intro b start stop nb b₂ h
    unfold H2Buffer.clone_partial at h
    split_ifs at h with h1
    have := H2Buffer.new_ok _ _ _ h
    rw [this.1]
    exact this.2.1
  · intro b t r b₂ h
    unfold H2Buffer.transform at h
    split_ifs at h with hp
    · simp at h
    cases hT : t.transform b.data with
    | error e =>
        rw [hT] at h
        simp at h
    | ok nd =>
        rw [hT] at h
        simp only [Prod.mk.injEq, Except.ok.injEq] at h
        obtain ⟨-, hb⟩ := h
        subst hb
        rfl
  · intro b od t b₂ h
    unfold H2Buffer.transform_undo at h
    split_ifs at h with hp
    · simp at h
    cases hL : b.transformations.getLast? with
    | none =>
        rw [hL] at h
        simp at h
    | some t₀ =>
        rw [hL] at h
        simp only [Prod.mk.injEq, Except.ok.injEq] at h
        obtain ⟨-, hb⟩ := h
        subst hb
        rfl
  · intro b r t b₂ h
    unfold H2Buffer.untransform at h
    split_ifs at h with hp
    · simp at h
    · split at h
      · simp at h
      · rename_i t₀ hL
        split at h
        · simp at h
        · rename_i nd hU
          simp only [Prod.mk.injEq, Except.ok.injEq] at h
          obtain ⟨⟨-, ht⟩, hb⟩ := h
          subst hb
          subst ht
          exact hU
  · intro b od t b₂ h
    unfold H2Buffer.untransform_undo at h
    split_ifs at h with hp
    · simp at h
    · simp only [Prod.mk.injEq] at h
      obtain ⟨-, hb⟩ := h
      subst hb
      rfl

/-- C5 amended-claim witness: the empty construction is rejected, and
`transform_undo` with concrete non-empty original bytes `[7]` installs exactly
those bytes. -/
theorem buffer_data_spec_witness :
    (H2Buffer.new [] 0).isOk = false
    ∧ (H2Buffer.transform_undo
        { data := [1], base_address := 0, layers := [],
          transformations := [idTransformation] } [7]).2.data = [7] := by
  refine ⟨buffer_data_spec.1 0, ?_⟩
  exact buffer_data_spec.2.2.2.2.2.2.1
    { data := [1], base_address := 0, layers := [], transformations := [idTransformation] }
    [7] idTransformation
    { data := [7], base_address := 0, layers := [], transformations := [] } rfl

/-- C6: `untransform` fails — leaving the buffer exactly as it was — when the
buffer is populated, when the transformation stack is empty, or when inverting
the last transformation fails (the inversion's error is surfaced unchanged);
on success it pops the last transformation, installs its inverse image as
`data`, and returns the previous data together with the popped
transformation. -/
theorem untransform_spec (b : H2Buffer) :
    (b.is_populated = true → H2Buffer.untransform b = (.error "Buffer contains data", b))
    ∧ (b.is_populated = false → b.transformations = [] →
        H2Buffer.untransform b = (.error "Buffer has no transformations", b))
    ∧ (∀ t e, b.is_populated = false → b.transformations.getLast? = some t →
        t.untransform b.data = .error e →
        H2Buffer.untransform b = (.error e, b))
    ∧ (∀ t nd, b.is_populated = false → b.transformations.getLast? = some t →
        t.untransform b.data = .ok nd →
        H2Buffer.untransform b =
          (.ok (b.data, t),
           { b with data := nd, transformations := b.transformations.dropLast })) := by
  refine ⟨?_, ?_, ?_, ?_⟩
  · intro hp
    unfold H2Buffer.untransform
    simp [hp]
  · intro hp ht
    unfold H2Buffer.untransform
    simp [hp, ht]
  · intro t e hp hl hu
    unfold H2Buffer.untransform
    simp [hp, hl, hu]
  · intro t nd hp hl hu
    unfold H2Buffer.untransform
    simp [hp, hl, hu]

/-- C6 witness: on the unpopulated buffer `[5]` with the identity
transformation stacked, `untransform` succeeds, returns the previous bytes and
the popped transformation, and empties the stack. -/
theorem untransform_spec_witness :
    H2Buffer.untransform
      { data := [5], base_address := 0, layers := [],
        transformations := [idTransformation] } =
    (.ok ([5], idTransformation),
     { data := [5], base_address := 0, layers := [], transformations := [] }) :=
  (untransform_spec
    { data := [5], base_address := 0, layers := [],
      transformations := [idTransformation] }).2.2.2 idTransformation [5] rfl rfl rfl

/-- Helper: every type expressible in the embedded fragment (numbers and
arrays of them) is static — the dynamic kinds of the source (`NTString`) are
commented out there. -/
theorem H2Type.is_static_true (t : H2Type) : t.is_static = true := by
  induction t with
  | number d a => rfl
  | array l ft a ih => simpa [H2Type.is_static] using ih

/-- Helper: the unrolled `resolve_partial` loop for an element whose unaligned
size is `s`: element `j` (counting from loop index `i` at offset `start`)
occupies `[start + j·stride, start + j·stride + s)` where the stride is the
element's aligned size. -/
theorem resolveElements_eq (ft : H2Type) (s : Nat) (hs : ft.field_size = .ok s)
    (n : Nat) : ∀ i start, resolveElements ft n i start =
      .ok ((List.range n).map (fun j =>
        { offset_start := start + j * maybe_round_up s ft.byte_alignment,
          offset_stop := start + j * maybe_round_up s ft.byte_alignment + s,
          field_name := some (toString (i + j)), field_type := ft })) := by
  have hNo : ft.size Align.No = .ok s := hs
  have hYes : ft.size Align.Yes = .ok (maybe_round_up s ft.byte_alignment) := by
    simp [H2Type.size, hs]
  induction n with
  | zero =>
      intro i start
      simp [resolveElements]
  | succ n ih =>
      intro i start
      simp only [resolveElements, hNo, hYes,
        ih (i + 1) (start + maybe_round_up s ft.byte_alignment)]
      simp only [List.range_succ_eq_map, List.map_cons, List.map_map]
      refine congrArg Except.ok (congrArg₂ List.cons ?_ ?_)
      · simp
      · refine List.map_congr_left ?_
        intro j hj
        simp only [Function.comp_apply]
        have e1 : start + maybe_round_up s ft.byte_alignment
            + j * maybe_round_up s ft.byte_alignment
            = start + (j + 1) * maybe_round_up s ft.byte_alignment := by ring
        have e2 : i + 1 + j = i + (j + 1) := by omega
        rw [e1, e2]

/-- C7: for an array of a statically-sized element resolved at position `p`,
element `i` occupies the exposed byte range
`[p + i·stride, p + i·stride + size)` where the stride is the element's
aligned size (`maybe_round_up` of its size by its alignment) and the width is
its unaligned size; the array's own (payload) size is
`length × aligned element size`. -/
theorem h2array_layout (length : Nat) (ft : H2Type) (al : Option Nat) (pos s : Nat)
    (hs : ft.field_size = .ok s) :
    H2Type.resolve_partial (H2Type.array length ft al) pos =
      .ok ((List.range length).map (fun i =>
        { offset_start := pos + i * maybe_round_up s ft.byte_alignment,
          offset_stop := pos + i * maybe_round_up s ft.byte_alignment + s,
          field_name := some (toString i), field_type := ft }))
    ∧ H2Type.size (H2Type.array length ft al) Align.No =
      .ok (length * maybe_round_up s ft.byte_alignment) := by
  constructor
  · rw [H2Type.resolve_partial, resolveElements_eq ft s hs length 0 pos]
    simp
  · simp [H2Type.size, H2Type.field_size, H2Type.is_static_true ft, hs]

/-- C7 witness: `Array(4, U8 aligned to 4)` has total size 16 and leaf ranges
`0..1, 4..5, 8..9, 12..13`, the spec's aligned-array example. -/
theorem h2array_layout_witness :
    H2Type.resolve_partial
        (H2Type.array 4 (H2Type.number SizedDefinition.U8 (some 4)) none) 0 =
      .ok [{ offset_start := 0, offset_stop := 1, field_name := some "0",
             field_type := H2Type.number SizedDefinition.U8 (some 4) },
           { offset_start := 4, offset_stop := 5, field_name := some "1",
             field_type := H2Type.number SizedDefinition.U8 (some 4) },
           { offset_start := 8, offset_stop := 9, field_name := some "2",
             field_type := H2Type.number SizedDefinition.U8 (some 4) },
           { offset_start := 12, offset_stop := 13, field_name := some "3",
             field_type := H2Type.number SizedDefinition.U8 (some 4) }]
    ∧ H2Type.size (H2Type.array 4 (H2Type.number SizedDefinition.U8 (some 4)) none)
        Align.No = .ok 16 := by
  have h := h2array_layout 4 (H2Type.number SizedDefinition.U8 (some 4)) none 0 1 rfl
  refine ⟨?_, ?_⟩
  · rw [h.1]
    rfl
  · rw [h.2]
    rfl

/-- C9: `AESSettings::new` succeeds exactly when the caller's key is 16, 24 or
32 bytes long (failing with the invalid-key-length error otherwise), and the
key it stores is the hardcoded constant of the matching length — whatever
bytes the caller supplied. -/
theorem aes_settings_new_spec (key : List Nat) (iv : Option (List Nat)) :
    ((AESSettings.new key iv).isOk = true ↔
      key.length = 16 ∨ key.length = 24 ∨ key.length = 32)
    ∧ (key.length = 16 →
        AESSettings.new key iv = .ok { key := AESKey.Bits128 aesHardcodedKey128, iv := iv })
    ∧ (key.length = 24 →
        AESSettings.new key iv = .ok { key := AESKey.Bits192 aesHardcodedKey192, iv := iv })
    ∧ (key.length = 32 →
        AESSettings.new key iv = .ok { key := AESKey.Bits256 aesHardcodedKey256, iv := iv }) := by
  unfold AESSettings.new
  split_ifs with h1 h2 h3
  · exact ⟨⟨fun _ => by omega, fun _ => rfl⟩, fun _ => rfl,
      fun h24 => absurd h24 (by omega), fun h32 => absurd h32 (by omega)⟩
  · exact ⟨⟨fun _ => by omega, fun _ => rfl⟩, fun h16 => absurd h16 h1,
      fun _ => rfl, fun h32 => absurd h32 (by omega)⟩
  · exact ⟨⟨fun _ => by omega, fun _ => rfl⟩, fun h16 => absurd h16 h1,
      fun h24 => absurd h24 h2, fun _ => rfl⟩
  · exact ⟨⟨fun habs => Bool.noConfusion habs, fun hd => absurd hd (by omega)⟩,
      fun h16 => absurd h16 h1, fun h24 => absurd h24 h2, fun h32 => absurd h32 h3⟩

/-- C9 witness: an all-zero 16-byte key is accepted and the stored key is the
hardcoded constant (not the zeros), while a 15-byte key is rejected. -/
theorem aes_settings_new_witness :
    AESSettings.new (List.replicate 16 0) none =
      .ok { key := AESKey.Bits128 aesHardcodedKey128, iv := none }
    ∧ (AESSettings.new (List.replicate 15 0) none).isOk = false := by
  refine ⟨(aes_settings_new_spec (List.replicate 16 0) none).2.1 (by simp), ?_⟩
  have h := (aes_settings_new_spec (List.replicate 15 0) none).1
  have hnot : ¬((AESSettings.new (List.replicate 15 0) none).isOk = true) := by
    rw [h]
    simp
  simpa using hnot
